import Mathlib

/-!
Shallow embedding of `src/digest/api.py` (the digest transcript-processing
core) and proofs about its specification.

Modelling conventions:
* A decoded JSON value is `JValue`.  JSON numbers are modelled as integers
  (no claim involves floating point).  Python `dict`s produced by
  `json.loads` are modelled as association lists whose lookup takes the
  last binding (later duplicate keys in a JSON object override earlier
  ones, exactly as `json.loads` behaves).
* One raw transcript line is `Line := Option JValue`: `none` models a line
  on which `json.loads` raises `JSONDecodeError`, `some v` a line that
  decodes to `v`.  (`json.loads` itself is Python stdlib, outside the
  repository, so its result is taken as the line's representation.)
* Python exceptions that can escape the core (`AttributeError` from
  calling `.get` on a non-dict, `TypeError` from `str.join` over
  non-strings) are modelled with `Except`; `FileNotFoundError` is
  `DigestError.fileNotFound`.
* The filesystem is `DigestState`: a map from session id to transcript
  lines (`none` = the `.jsonl` file does not exist) and a map from session
  id to the stored watermark (`none` = no `processed/<id>.json` file).
  Operations that may write state return the updated `DigestState`.
-/

/-- A decoded JSON value (numbers restricted to integers). -/
inductive JValue where
  | null
  | bool (b : Bool)
  | num (n : Int)
  | str (s : String)
  | arr (elems : List JValue)
  | obj (fields : List (String × JValue))

/-- Dictionary lookup, last binding wins (as for duplicate keys in
`json.loads`).  Models Python `d.get(k)` returning `None` when absent. -/
def jlookup (fs : List (String × JValue)) (k : String) : Option JValue :=
  match fs with
  | [] => none
  | (k₁, v₁) :: rest =>
    match jlookup rest k with
    | some v => some v
    | none => if k₁ = k then some v₁ else none

/-- Python truthiness of a JSON value (`if x:`). -/
def JValue.truthy : JValue → Bool
  | .null => false
  | .bool b => b
  | .num n => n != 0
  | .str s => s != ""
  | .arr l => !l.isEmpty
  | .obj fs => !fs.isEmpty

/-- Python `isinstance(v, str)`. -/
def JValue.isStr : JValue → Bool
  | .str _ => true
  | _ => false

/-- The underlying string of a `.str` (only used under an `isStr` guard). -/
def JValue.asStr : JValue → String
  | .str s => s
  | _ => ""

/-- Hexadecimal digits of `n` padded to width 4 (for `\uXXXX` escapes). -/
def hex4 (n : Nat) : String :=
  let ds := Nat.toDigits 16 n
  let pad := List.replicate (4 - ds.length) '0'
  String.mk (pad ++ ds)

/-- Escaping of one character inside a JSON string literal, as
`json.dumps` (default `ensure_ascii=True`) produces it. -/
def jEscapeChar (c : Char) : String :=
  if c = '"' then "\\\""
  else if c = '\\' then "\\\\"
  else if c = '\n' then "\\n"
  else if c = '\t' then "\\t"
  else if c = '\x0d' then "\\r"
  else if c.toNat < 32 ∨ c.toNat > 126 then "\\u" ++ hex4 c.toNat
  else String.singleton c

/-- A JSON string literal as `json.dumps` prints it. -/
def jEscapeString (s : String) : String :=
  "\"" ++ String.join (s.data.map jEscapeChar) ++ "\""

mutual

/-- Model of Python `json.dumps` with its default separators
(`", "` between items, `": "` between key and value). -/
def JValue.dumps : JValue → String
  | .null => "null"
  | .bool true => "true"
  | .bool false => "false"
  | .num n => toString n
  | .str s => jEscapeString s
  | .arr l => "[" ++ dumpsList l ++ "]"
  | .obj fs => "\x7b" ++ dumpsFields fs ++ "\x7d"

/-- Join with `", "` of the dumps of the elements of a JSON array. -/
def dumpsList : List JValue → String
  | [] => ""
  | [v] => JValue.dumps v
  | v :: rest => JValue.dumps v ++ ", " ++ dumpsList rest

/-- Join with `", "` of the `"key": value` renderings of a JSON object. -/
def dumpsFields : List (String × JValue) → String
  | [] => ""
  | [(k, v)] => jEscapeString k ++ ": " ++ JValue.dumps v
  | (k, v) :: rest => jEscapeString k ++ ": " ++ JValue.dumps v ++ ", " ++ dumpsFields rest

end

mutual

/-- Model of Python `repr` on a JSON-loaded value (used by `str` on
containers inside f-strings). -/
def pyRepr : JValue → String
  | .null => "None"
  | .bool true => "True"
  | .bool false => "False"
  | .num n => toString n
  | .str s => "\x27" ++ s ++ "\x27"
  | .arr l => "[" ++ pyReprList l ++ "]"
  | .obj fs => "\x7b" ++ pyReprFields fs ++ "\x7d"

/-- Join with `", "` of the reprs of the elements of a Python list. -/
def pyReprList : List JValue → String
  | [] => ""
  | [v] => pyRepr v
  | v :: rest => pyRepr v ++ ", " ++ pyReprList rest

/-- Join with `", "` of the `key: value` reprs of a Python dict. -/
def pyReprFields : List (String × JValue) → String
  | [] => ""
  | [(k, v)] => pyRepr (.str k) ++ ": " ++ pyRepr v
  | (k, v) :: rest => pyRepr (.str k) ++ ": " ++ pyRepr v ++ ", " ++ pyReprFields rest

end

/-- Model of Python `str` (f-string interpolation) on a JSON-loaded value. -/
def pyStr (v : JValue) : String :=
  match v with
  | .str s => s
  | v => pyRepr v

/-- Python exceptions the content flattener can raise on adversarial
shapes: `AttributeError` (`.get` on a non-dict), `TypeError`
(`str.join` over a non-string). -/
inductive PyError where
  | attributeError
  | typeError
deriving DecidableEq

/-- Errors surfaced by the API: `FileNotFoundError`, or a propagated
Python exception from the flattener. -/
inductive DigestError where
  | fileNotFound
  | pyError (e : PyError)
deriving DecidableEq

/-- Python `v.get(k)`: association lookup on a dict, `AttributeError`
on anything else. -/
def dictGet (v : JValue) (k : String) : Except PyError (Option JValue) :=
  match v with
  | .obj fs => .ok (jlookup fs k)
  | _ => .error .attributeError

/-- Python `sep.join(texts)` where every element must be a `str`
(`TypeError` otherwise). -/
def joinAllStr (sep : String) (texts : List JValue) : Except PyError String :=
  if texts.all JValue.isStr then .ok (sep.intercalate (texts.map JValue.asStr))
  else .error .typeError

/-- Python `sep.join(p for p in parts if p)`: keep truthy elements, all of
which must be `str` (`TypeError` otherwise). -/
def joinTruthyStr (sep : String) (parts : List JValue) : Except PyError String :=
  joinAllStr sep (parts.filter JValue.truthy)

/-- One iteration of the `for item in content` loop of
`DigestAPI._extract_message_content` (api.py lines 110-141): the part, if
any, this content block appends to `parts`. -/
def renderBlock (item : JValue) : Except PyError (Option JValue) :=
  match item with
  | .str s => .ok (some (.str s))
  | .obj fs =>
    match jlookup fs "type" with
    | some (.str item_type) =>
      if item_type = "text" then
        -- text = item.get("text", ""); if text: parts.append(text)
        let text := (jlookup fs "text").getD (.str "")
        .ok (if text.truthy then some text else none)
      else if item_type = "tool_use" then
        -- name = item.get("name", "unknown")
        -- inp = json.dumps(item.get("input", {}))
        let name := (jlookup fs "name").getD (.str "unknown")
        let inp := ((jlookup fs "input").getD (.obj [])).dumps
        .ok (some (.str ("[TOOL USE: " ++ pyStr name ++ "]: " ++ inp)))
      else if item_type = "tool_result" then
        -- tool_content = item.get("content", "")
        -- is_error = item.get("is_error", False)
        let tool_content := (jlookup fs "content").getD (.str "")
        let is_error := (jlookup fs "is_error").getD (.bool false)
        let pfx := if is_error.truthy then "[TOOL ERROR]" else "[TOOL RESULT]"
        match tool_content with
        | .str s => .ok (some (.str (pfx ++ ": " ++ s)))
        | .arr elems =>
          -- texts = [c.get("text", "") for c in tool_content if isinstance(c, dict)]
          match joinAllStr " "
              (elems.filterMap fun c =>
                match c with
                | .obj cfs => some ((jlookup cfs "text").getD (.str ""))
                | _ => none) with
          | .error e => .error e
          | .ok joined => .ok (some (.str (pfx ++ ": " ++ joined)))
        | _ => .ok (some (.str pfx))
      else if item_type = "thinking" then
        -- thinking_text = item.get("thinking", "")
        let thinking_text := (jlookup fs "thinking").getD (.str "")
        .ok (if thinking_text.truthy
             then some (.str ("[THINKING]: " ++ pyStr thinking_text))
             else none)
      else .ok none
    | _ => .ok none
  | _ => .ok none

/-- Model of `DigestAPI._extract_message_content` (api.py lines 98-146). -/
def extract_message_content (message : JValue) : Except PyError (Option String) := do
  -- content = message.get("message", {}).get("content")
  let m := (← dictGet message "message").getD (.obj [])
  let content ← dictGet m "content"
  match content with
  | none => pure none            -- key absent: content is None
  | some .null => pure none      -- JSON null: content is None
  | some (.str s) =>
    -- return content if content else None
    pure (if s = "" then none else some s)
  | some (.arr items) => do
    let parts ← items.foldlM
      (fun (ps : List JValue) item => do
        match (← renderBlock item) with
        | some p => pure (ps ++ [p])
        | none => pure ps) []
    -- result = "\n".join(p for p in parts if p); return result if result else None
    let result ← joinTruthyStr "\n" parts
    pure (if result = "" then none else some result)
  | some _ => pure none

/-! ## The extraction engine (api.py lines 14-15, 35-53, 65-302) -/

/-- One raw transcript line: `none` when `json.loads` raises,
`some v` when the line decodes to `v`. -/
abbrev Line : Type := Option JValue

/-- Constant `DEFAULT_CHAR_BUDGET = 50_000` (api.py line 14). -/
def DEFAULT_CHAR_BUDGET : Nat := 50000

/-- Constant `LINE_OVERLAP = 10` (api.py line 15). -/
def LINE_OVERLAP : Int := 10

/-- Dataclass `ExtractResult` (api.py lines 35-45). -/
structure ExtractResult where
  session_id : String
  start_line : Int
  end_line : Int
  total_lines : Nat
  content : List String
  total_chars : Nat
  next_cursor : Option Int
deriving DecidableEq

/-- Dataclass `MarkResult` (api.py lines 48-53). -/
structure MarkResult where
  session_id : String
  lines_marked : Nat
deriving DecidableEq

/-- The storage a `DigestAPI` instance sees: the transcript files under
`notes/logs/raw/` keyed by session id (`none` = file missing), and the
watermark value stored in `notes/logs/processed/<id>.json`
(`none` = file missing). -/
structure DigestState where
  transcripts : String → Option (List Line)
  processed : String → Option Nat

/-- Model of `DigestAPI._get_processed_lines` (api.py lines 83-89): stored
watermark, defaulting to 0 when no processed file exists. -/
def getProcessedLines (st : DigestState) (session_id : String) : Nat :=
  (st.processed session_id).getD 0

/-- Cursor defaulting of `DigestAPI.extract` (api.py lines 206-208):
`processed + 1 if processed > 0 else 1` when no cursor is supplied. -/
def resolveCursor (st : DigestState) (session_id : String) (cursor? : Option Int) : Int :=
  match cursor? with
  | some c => c
  | none =>
    let processed := getProcessedLines st session_id
    if processed > 0 then (processed : Int) + 1 else 1

/-- The per-line part of the scan loop body of `DigestAPI.extract`
(api.py lines 234-251): `none` when the line is skipped (`continue`) —
decode failure, non-dict record, role outside \x7buser, assistant\x7d, or
empty flattened content — and `some formatted` when the line produces
the formatted message `"[<ROLE-UPPERCASE>]: <content>"`. -/
def lineMsg (line : Line) : Except PyError (Option String) :=
  match line with
  | none => .ok none                    -- json.JSONDecodeError: continue
  | some data =>
    match data with
    | .obj fs =>
      match jlookup fs "type" with
      | some (.str msg_type) =>
        if msg_type = "user" ∨ msg_type = "assistant" then
          match extract_message_content (.obj fs) with
          | .error e => .error e
          | .ok none => .ok none        -- if not content: continue
          | .ok (some content) =>
            if content = "" then .ok none
            else .ok (some ("[" ++ msg_type.toUpper ++ "]: " ++ content))
        else .ok none                   -- msg_type not in ("user", "assistant")
      | _ => .ok none                   -- data.get("type") not a matching str
    | _ => .ok none                     -- not isinstance(data, dict): continue

/-- The scan loop of `DigestAPI.extract` (api.py lines 222-260),
over the lines from index `i` on.  State: `extracted` (accepted
formatted lines), `total_chars`, `last_line_read`.  Returns the final
`(extracted, total_chars, last_line_read)`; the early `break` with the
`last_line_read = i - 1` rollback is the `.ok (extracted, total_chars,
i - 1)` branch. -/
def go (cursor : Int) (char_budget : Nat) (lines : List Line) (i : Int)
    (extracted : List String) (total_chars : Nat) (last_line_read : Int) :
    Except PyError (List String × Nat × Int) :=
  match lines with
  | [] => .ok (extracted, total_chars, last_line_read)
  | line :: rest =>
    if i < cursor then
      go cursor char_budget rest (i + 1) extracted total_chars last_line_read
    else
      match lineMsg line with
      | .error e => .error e
      | .ok none => go cursor char_budget rest (i + 1) extracted total_chars i
      | .ok (some formatted) =>
        -- if total_chars + line_chars > char_budget and extracted_lines: break
        if total_chars + formatted.length > char_budget ∧ extracted ≠ [] then
          .ok (extracted, total_chars, i - 1)
        else
          go cursor char_budget rest (i + 1) (extracted ++ [formatted])
            (total_chars + formatted.length) i

/-- Model of `DigestAPI.extract` (api.py lines 175-277).  Pure reads only, so the
returned state equals the input state; a propagated flattener exception
is `.error (.pyError _)`, a missing transcript `.error .fileNotFound`. -/
def DigestAPI.extract (st : DigestState) (session_id : String)
    (cursor? : Option Int) (char_budget : Nat) :
    Except DigestError (ExtractResult × DigestState) :=
  match st.transcripts session_id with
  | none => .error .fileNotFound        -- raise FileNotFoundError
  | some lines =>
    let total_lines := lines.length
    let cursor := resolveCursor st session_id cursor?
    if cursor > (total_lines : Int) then
      -- Handle cursor beyond file (api.py lines 210-220)
      .ok ({ session_id := session_id, start_line := cursor, end_line := cursor - 1,
             total_lines := total_lines, content := [], total_chars := 0,
             next_cursor := none }, st)
    else
      match go cursor char_budget lines 1 [] 0 (cursor - 1) with
      | .error e => .error (.pyError e)
      | .ok (extracted, total_chars, last_line_read) =>
        -- Calculate next cursor (with overlap) (api.py lines 262-267)
        let end_line := last_line_read
        let next_cursor : Option Int :=
          if end_line < (total_lines : Int)
          then some (max cursor (end_line - LINE_OVERLAP + 1))
          else none
        .ok ({ session_id := session_id, start_line := cursor, end_line := end_line,
               total_lines := total_lines, content := extracted,
               total_chars := total_chars, next_cursor := next_cursor }, st)

/-- Model of `DigestAPI.mark_processed` (api.py lines 279-302): counts the
transcript's lines, overwrites the watermark file with that count, and
returns it. -/
def DigestAPI.mark_processed (st : DigestState) (session_id : String) :
    Except DigestError (MarkResult × DigestState) :=
  match st.transcripts session_id with
  | none => .error .fileNotFound        -- raise FileNotFoundError
  | some lines =>
    let total := lines.length
    .ok ({ session_id := session_id, lines_marked := total },
         { st with processed := fun k => if k = session_id then some total else st.processed k })

/-! ## Concrete storage used by witnesses and counterexamples -/

/-- A well-formed transcript line
`\x7b"type": "user", "message": \x7b"content": "hi"\x7d\x7d`;
it flattens to `"[USER]: hi"` (10 characters). -/
def uline : Line :=
  some (.obj [("type", .str "user"), ("message", .obj [("content", .str "hi")])])

/-- Storage holding one transcript `"s"` of two `uline` lines and no
watermark files. -/
def demoState : DigestState :=
  { transcripts := fun k => if k = "s" then some [uline, uline] else none
    processed := fun _ => none }

/-- The result of `extract demoState "s" (cursor := 1) (char_budget := 5)`:
line 1 is accepted despite exceeding the budget (oversized-first-line
exception), line 2 is rejected, `last_line_read` rolls back to 1, and the
overlap computation gives `next_cursor = max 1 (1 - 10 + 1) = 1` — the very
cursor this call was given. -/
def demoRes : ExtractResult :=
  { session_id := "s", start_line := 1, end_line := 1, total_lines := 2,
    content := ["[USER]: hi"], total_chars := 10, next_cursor := some 1 }

/-- The result of the same call started from the non-positive cursor 0. -/
def demoRes0 : ExtractResult :=
  { session_id := "s", start_line := 0, end_line := 1, total_lines := 2,
    content := ["[USER]: hi"], total_chars := 10, next_cursor := some 0 }

/-! ## Helper lemmas -/

/-- Frame fact: `extract` performs no writes — the state it returns is the state it was
given. -/
theorem extract_returns_input_state (st : DigestState) (session_id : String)
    (cursor? : Option Int) (char_budget : Nat) (r : ExtractResult) (st' : DigestState)
    (h : DigestAPI.extract st session_id cursor? char_budget = .ok (r, st')) :
    st' = st := by
  unfold DigestAPI.extract at h
  cases hT : st.transcripts session_id <;> rw [hT] at h
  · simp at h
  · dsimp only at h
    split at h
    · simp only [Except.ok.injEq, Prod.mk.injEq] at h
      exact h.2.symm
    · split at h
      · simp at h
      · simp only [Except.ok.injEq, Prod.mk.injEq] at h
        exact h.2.symm

/-! ## Claim theorems -/

/-- C8: for every transcript identifier and every `extract` call (any
cursor and budget), the stored watermark of every transcript is the same
after the call as before it — `extract` is a pure read of the transcript
and never updates the watermark. -/
theorem extract_preserves_watermark (st : DigestState) (session_id : String)
    (cursor? : Option Int) (char_budget : Nat) (r : ExtractResult) (st' : DigestState)
    (h : DigestAPI.extract st session_id cursor? char_budget = .ok (r, st'))
    (tid : String) :
    st'.processed tid = st.processed tid := by
  rw [extract_returns_input_state st session_id cursor? char_budget r st' h]

/-- Witness for C8 at the concrete demo storage. -/
theorem extract_preserves_watermark_witness :
    demoState.processed "s" = demoState.processed "s" :=
  extract_preserves_watermark demoState "s" (some 1) 5 demoRes demoState
    (by with_unfolding_all rfl) "s"

/-- C9: two `extract` calls with identical arguments, the second run on
the state the first returned (no intervening writes), produce identical
results: the first call returns `(r, st₁)` and the repeated call on `st₁`
returns exactly `(r, st₁)` again. -/
theorem extract_idempotent (st : DigestState) (session_id : String)
    (cursor? : Option Int) (char_budget : Nat) (r : ExtractResult) (st₁ : DigestState)
    (h : DigestAPI.extract st session_id cursor? char_budget = .ok (r, st₁)) :
    DigestAPI.extract st₁ session_id cursor? char_budget = .ok (r, st₁) := by
  have hst := extract_returns_input_state st session_id cursor? char_budget r st₁ h
  subst hst
  exact h

/-- Witness for C9 at the concrete demo storage. -/
theorem extract_idempotent_witness :
    DigestAPI.extract demoState "s" (some 1) 5 = .ok (demoRes, demoState) :=
  extract_idempotent demoState "s" (some 1) 5 demoRes demoState
    (by with_unfolding_all rfl)

/-- C5: an `extract` call whose cursor exceeds the transcript's current
total line count returns immediately with empty content, `totalChars = 0`,
`startLine = cursor`, `endLine = cursor - 1` and `nextCursor = null`. -/
theorem extract_cursor_beyond_file (st : DigestState) (session_id : String)
    (lines : List Line) (c : Int) (char_budget : Nat)
    (hT : st.transcripts session_id = some lines)
    (hc : (lines.length : Int) < c) :
    DigestAPI.extract st session_id (some c) char_budget =
      .ok ({ session_id := session_id, start_line := c, end_line := c - 1,
             total_lines := lines.length, content := [], total_chars := 0,
             next_cursor := none }, st) := by
  unfold DigestAPI.extract
  rw [hT]
  dsimp only [resolveCursor]
  rw [if_pos (by exact_mod_cast hc)]

/-- Witness for C5: cursor 100 against the 2-line demo transcript. -/
theorem extract_cursor_beyond_file_witness :
    DigestAPI.extract demoState "s" (some 100) 5 =
      .ok ({ session_id := "s", start_line := 100, end_line := 99,
             total_lines := 2, content := [], total_chars := 0,
             next_cursor := none }, demoState) :=
  extract_cursor_beyond_file demoState "s" [uline, uline] 100 5
    (by with_unfolding_all rfl) (by decide)

/-- C7: `mark_processed` on an existing transcript reads the current
total line count, overwrites the stored watermark with exactly that
count, and returns it; immediately afterwards the watermark read yields
that same count while the transcript is unchanged (`watermark(id) =
totalLines(id)` at that instant); and a watermark read for a transcript
never marked yields 0. -/
theorem mark_processed_watermark :
    (∀ (st : DigestState) (session_id : String) (lines : List Line),
      st.transcripts session_id = some lines →
      ∃ st' : DigestState,
        DigestAPI.mark_processed st session_id =
          .ok ({ session_id := session_id, lines_marked := lines.length }, st')
        ∧ st'.processed session_id = some lines.length
        ∧ getProcessedLines st' session_id = lines.length
        ∧ st'.transcripts = st.transcripts)
    ∧ (∀ (st : DigestState) (session_id : String),
        st.processed session_id = none → getProcessedLines st session_id = 0) := by
  constructor
  · intro st session_id lines hT
    refine ⟨{ st with processed :=
        fun k => if k = session_id then some lines.length else st.processed k },
      ?_, ?_, ?_, rfl⟩
    · unfold DigestAPI.mark_processed
      rw [hT]
    · simp
    · simp [getProcessedLines]
  · intro st session_id h
    simp [getProcessedLines, h]

/-- Witness for C7 at the concrete demo storage. -/
theorem mark_processed_watermark_witness :
    (∃ st' : DigestState,
      DigestAPI.mark_processed demoState "s" =
        .ok ({ session_id := "s", lines_marked := ([uline, uline] : List Line).length }, st')
      ∧ st'.processed "s" = some ([uline, uline] : List Line).length
      ∧ getProcessedLines st' "s" = ([uline, uline] : List Line).length
      ∧ st'.transcripts = demoState.transcripts)
    ∧ getProcessedLines demoState "missing" = 0 :=
  ⟨mark_processed_watermark.1 demoState "s" [uline, uline] (by with_unfolding_all rfl),
   mark_processed_watermark.2 demoState "missing" rfl⟩

/-- Helper: a line that decodes to a non-dict value is skipped by the
scan loop (it yields no formatted message). -/
theorem lineMsg_nonDict (v : JValue) (h : ∀ fs, v ≠ JValue.obj fs) :
    lineMsg (some v) = .ok none := by
  cases v
  case obj fs => exact absurd rfl (h fs)
  all_goals rfl

/-- C4: `extract` and `mark_processed` fail with `FileNotFoundError`
exactly when the named transcript does not exist; and a transcript line
that fails to decode, or decodes to a non-dict value, is absorbed
silently: scanning it is the same as scanning the rest, except that it
still advances `last_line_read` to its own line number (so it still
counts toward `endLine`). -/
theorem extract_mark_notFound_malformed_skipped :
    (∀ (st : DigestState) (session_id : String) (cursor? : Option Int) (char_budget : Nat),
      DigestAPI.extract st session_id cursor? char_budget = .error .fileNotFound ↔
        st.transcripts session_id = none)
    ∧ (∀ (st : DigestState) (session_id : String),
      DigestAPI.mark_processed st session_id = .error .fileNotFound ↔
        st.transcripts session_id = none)
    ∧ (∀ (cursor : Int) (char_budget : Nat) (line : Line) (rest : List Line) (i : Int)
        (extracted : List String) (total_chars : Nat) (last_line_read : Int),
        cursor ≤ i →
        (line = none ∨ ∃ v, line = some v ∧ ∀ fs, v ≠ JValue.obj fs) →
        go cursor char_budget (line :: rest) i extracted total_chars last_line_read =
          go cursor char_budget rest (i + 1) extracted total_chars i) := by
  refine ⟨?_, ?_, ?_⟩
  · intro st session_id cursor? char_budget
    constructor
    · intro h
      by_contra hne
      rcases Option.ne_none_iff_exists.mp hne with ⟨lines, hl⟩
      unfold DigestAPI.extract at h
      rw [← hl] at h
      dsimp only at h
      split at h
      · simp at h
      · split at h <;> simp at h
    · intro h
      unfold DigestAPI.extract
      rw [h]
  · intro st session_id
    constructor
    · intro h
      by_contra hne
      rcases Option.ne_none_iff_exists.mp hne with ⟨lines, hl⟩
      unfold DigestAPI.mark_processed at h
      rw [← hl] at h
      simp at h
    · intro h
      unfold DigestAPI.mark_processed
      rw [h]
  · intro cursor char_budget line rest i extracted total_chars last_line_read hci hbad
    have hlm : lineMsg line = .ok none := by
      rcases hbad with h | ⟨v, hv, hobj⟩
      · rw [h]; rfl
      · rw [hv]; exact lineMsg_nonDict v hobj
    rw [go, if_neg (by omega), hlm]

/-- Witness for C4: a transcript of one undecodable line, and a missing
transcript id. -/
theorem extract_mark_notFound_malformed_skipped_witness :
    go 1 5 [(none : Line)] 1 [] 0 0 = go 1 5 [] 2 [] 0 1
    ∧ (DigestAPI.extract demoState "missing" (some 1) 5 = .error .fileNotFound ↔
        demoState.transcripts "missing" = none) :=
  ⟨extract_mark_notFound_malformed_skipped.2.2 1 5 none [] 1 [] 0 0 (by decide)
      (Or.inl rfl),
   extract_mark_notFound_malformed_skipped.1 demoState "missing" (some 1) 5⟩

/-- The scenario block of C6:
`\x7b"type": "tool_result", "content": "File not found", "is_error": true\x7d`. -/
def toolErrBlock : JValue :=
  .obj [("type", .str "tool_result"), ("content", .str "File not found"),
        ("is_error", .bool true)]

/-- C6: a tool-outcome content block renders with prefix `"[TOOL ERROR]"`
when its error flag is truthy and `"[TOOL RESULT]"` otherwise, followed by
`": "` and the literal text when its content is a string, or the
space-joined `"text"` entries of its dict-shaped elements when its content
is a list (given they are strings, as Python `str.join` requires), or just
the prefix alone when it is neither; in particular the scenario block with
`is_error = true` and string content `"File not found"` renders as
`"[TOOL ERROR]: File not found"`. -/
theorem render_tool_result (fs : List (String × JValue))
    (ht : jlookup fs "type" = some (.str "tool_result")) :
    ((∀ s, (jlookup fs "content").getD (.str "") = .str s →
      renderBlock (.obj fs) = .ok (some (.str
        ((if ((jlookup fs "is_error").getD (.bool false)).truthy
          then "[TOOL ERROR]" else "[TOOL RESULT]") ++ ": " ++ s))))
    ∧ (∀ elems, (jlookup fs "content").getD (.str "") = .arr elems →
        ∀ texts, texts = (elems.filterMap fun c =>
            match c with
            | .obj cfs => some ((jlookup cfs "text").getD (.str ""))
            | _ => none) →
          texts.all JValue.isStr →
          renderBlock (.obj fs) = .ok (some (.str
            ((if ((jlookup fs "is_error").getD (.bool false)).truthy
              then "[TOOL ERROR]" else "[TOOL RESULT]") ++ ": " ++
              " ".intercalate (texts.map JValue.asStr)))))
    ∧ ((∀ s, (jlookup fs "content").getD (.str "") ≠ .str s) →
       (∀ elems, (jlookup fs "content").getD (.str "") ≠ .arr elems) →
        renderBlock (.obj fs) = .ok (some (.str
          (if ((jlookup fs "is_error").getD (.bool false)).truthy
           then "[TOOL ERROR]" else "[TOOL RESULT]")))))
    ∧ renderBlock toolErrBlock = .ok (some (.str "[TOOL ERROR]: File not found")) := by
  have hbranch : renderBlock (.obj fs) =
      (match (jlookup fs "content").getD (.str "") with
       | .str s => .ok (some (.str
           ((if ((jlookup fs "is_error").getD (.bool false)).truthy
             then "[TOOL ERROR]" else "[TOOL RESULT]") ++ ": " ++ s)))
       | .arr elems =>
         match joinAllStr " "
             (elems.filterMap fun c =>
               match c with
               | .obj cfs => some ((jlookup cfs "text").getD (.str ""))
               | _ => none) with
         | .error e => .error e
         | .ok joined => .ok (some (.str
             ((if ((jlookup fs "is_error").getD (.bool false)).truthy
               then "[TOOL ERROR]" else "[TOOL RESULT]") ++ ": " ++ joined)))
       | _ => .ok (some (.str
           (if ((jlookup fs "is_error").getD (.bool false)).truthy
            then "[TOOL ERROR]" else "[TOOL RESULT]")))) := by
    unfold renderBlock
    simp only [ht, String.reduceEq, reduceIte]
  refine ⟨⟨?_, ?_, ?_⟩, by with_unfolding_all rfl⟩
  · intro s hs
    rw [hbranch, hs]
  · intro elems he texts htexts hall
    rw [hbranch, he]
    subst htexts
    dsimp only
    rw [joinAllStr, if_pos hall]
  · intro hs he
    rw [hbranch]
    rcases hc : (jlookup fs "content").getD (.str "") with _ | b | n | s | elems | ofs
    · rfl
    · rfl
    · rfl
    · exact absurd hc (hs s)
    · exact absurd hc (he elems)
    · rfl

/-- Witness for C6: the scenario block, via the string-content case. -/
theorem render_tool_result_witness :
    renderBlock toolErrBlock = .ok (some (.str
      ((if ((jlookup [("type", JValue.str "tool_result"),
                      ("content", JValue.str "File not found"),
                      ("is_error", JValue.bool true)] "is_error").getD
              (.bool false)).truthy
        then "[TOOL ERROR]" else "[TOOL RESULT]") ++ ": " ++ "File not found"))) :=
  (render_tool_result [("type", .str "tool_result"),
      ("content", .str "File not found"), ("is_error", .bool true)]
    (by with_unfolding_all rfl)).1.1 "File not found" (by with_unfolding_all rfl)

/-- Scan invariant behind the budget rule: `total_chars` is always the
sum of the lengths of the accepted lines, once two or more lines are
accepted the running total is within budget, and the total exceeds the
budget only when exactly one (oversized) line was accepted. -/
theorem go_budget_invariant (cursor : Int) (char_budget : Nat) :
    ∀ (lines : List Line) (i : Int) (extracted : List String) (total_chars : Nat)
      (last_line_read : Int),
      total_chars = (extracted.map String.length).sum →
      (2 ≤ extracted.length → total_chars ≤ char_budget) →
      (char_budget < total_chars → extracted.length = 1) →
      ∀ a t e,
        go cursor char_budget lines i extracted total_chars last_line_read = .ok (a, t, e) →
        t = (a.map String.length).sum
        ∧ (2 ≤ a.length → t ≤ char_budget)
        ∧ (char_budget < t → a.length = 1) := by
  intro lines
  induction lines with
  | nil =>
    intro i acc tc llr h1 h2 h3 a t e hgo
    rw [go] at hgo
    simp only [Except.ok.injEq, Prod.mk.injEq] at hgo
    obtain ⟨ha, ht, -⟩ := hgo
    subst ha
    subst ht
    exact ⟨h1, h2, h3⟩
  | cons line rest ih =>
    intro i acc tc llr h1 h2 h3 a t e hgo
    rw [go] at hgo
    split at hgo
    · exact ih (i + 1) acc tc llr h1 h2 h3 a t e hgo
    · split at hgo
      · exact absurd hgo (by simp)
      · exact ih (i + 1) acc tc i h1 h2 h3 a t e hgo
      · rename_i formatted hlm
        split at hgo
        · simp only [Except.ok.injEq, Prod.mk.injEq] at hgo
          obtain ⟨ha, ht, -⟩ := hgo
          subst ha
          subst ht
          exact ⟨h1, h2, h3⟩
        · rename_i hnb
          rcases Decidable.not_and_iff_or_not.mp hnb with hle | hemp
          · -- tc + formatted.length ≤ char_budget
            have hle' : tc + formatted.length ≤ char_budget := by omega
            refine ih (i + 1) (acc ++ [formatted]) (tc + formatted.length) i ?_ ?_ ?_ a t e hgo
            · simp [h1]
            · intro _
              exact hle'
            · intro hgt
              exact absurd hle' (by omega)
          · -- extracted was empty: first (possibly oversized) acceptance
            have hacc : acc = [] := by
              by_contra hne
              exact hemp hne
            subst hacc
            refine ih (i + 1) ([] ++ [formatted]) (tc + formatted.length) i ?_ ?_ ?_ a t e hgo
            · have : tc = 0 := by simpa using h1
              simp [this]
            · intro hlen
              simp at hlen
            · intro _
              simp

/-- C2: the budget rule.  (1) Before a new formatted line would be
appended, if the running total plus its length exceeds the budget and at
least one line has already been accepted, the scan stops and
`last_line_read` rolls back to the line immediately before the rejected
one, with no further lines added.  (2) If no line has been accepted yet,
the line is accepted regardless of its size and the scan continues.
(3) Consequently, in every `extract` result `totalChars` is the sum of the
content lengths, a result with two or more lines never exceeds the budget,
and a result exceeding the budget is a single oversized line returned
whole, as the sole element of `content`. -/
theorem extract_char_budget_rule :
    (∀ (cursor : Int) (char_budget : Nat) (line : Line) (rest : List Line) (i : Int)
        (extracted : List String) (total_chars : Nat) (last_line_read : Int)
        (formatted : String),
        ¬ i < cursor →
        lineMsg line = .ok (some formatted) →
        char_budget < total_chars + formatted.length →
        extracted ≠ [] →
        go cursor char_budget (line :: rest) i extracted total_chars last_line_read =
          .ok (extracted, total_chars, i - 1))
    ∧ (∀ (cursor : Int) (char_budget : Nat) (line : Line) (rest : List Line) (i : Int)
        (total_chars : Nat) (last_line_read : Int) (formatted : String),
        ¬ i < cursor →
        lineMsg line = .ok (some formatted) →
        go cursor char_budget (line :: rest) i [] total_chars last_line_read =
          go cursor char_budget rest (i + 1) [formatted] (total_chars + formatted.length) i)
    ∧ (∀ (st : DigestState) (session_id : String) (cursor? : Option Int)
        (char_budget : Nat) (r : ExtractResult) (st' : DigestState),
        DigestAPI.extract st session_id cursor? char_budget = .ok (r, st') →
          r.total_chars = (r.content.map String.length).sum
          ∧ (2 ≤ r.content.length → r.total_chars ≤ char_budget)
          ∧ (char_budget < r.total_chars →
              ∃ l, r.content = [l] ∧ l.length = r.total_chars)) := by
  refine ⟨?_, ?_, ?_⟩
  · intro cursor char_budget line rest i acc tc llr f hi hlm hgt hne
    rw [go, if_neg hi, hlm]
    dsimp only
    rw [if_pos ⟨by omega, hne⟩]
  · intro cursor char_budget line rest i tc llr f hi hlm
    rw [go, if_neg hi, hlm]
    dsimp only
    rw [if_neg (by simp), List.nil_append]
  · intro st session_id cursor? char_budget r st' h
    unfold DigestAPI.extract at h
    cases hT : st.transcripts session_id <;> rw [hT] at h
    · simp at h
    · dsimp only at h
      split at h
      · simp only [Except.ok.injEq, Prod.mk.injEq] at h
        rw [← h.1]
        refine ⟨rfl, ?_, ?_⟩ <;> simp
      · split at h
        · simp at h
        · rename_i extracted total_chars last_line_read heq
          have hinv := go_budget_invariant _ char_budget _ 1 [] 0 _ rfl
            (by simp) (by omega) extracted total_chars last_line_read heq
          simp only [Except.ok.injEq, Prod.mk.injEq] at h
          rw [← h.1]
          refine ⟨hinv.1, hinv.2.1, ?_⟩
          intro hgt
          obtain ⟨l, hl⟩ := List.length_eq_one.mp (hinv.2.2 hgt)
          refine ⟨l, hl, ?_⟩
          rw [hinv.1, hl]
          simp

/-- Witness for C2: the demo extraction with budget 5 accepts the single
oversized line `"[USER]: hi"` (10 characters) whole. -/
theorem extract_char_budget_rule_witness :
    demoRes.total_chars = (demoRes.content.map String.length).sum
    ∧ (2 ≤ demoRes.content.length → demoRes.total_chars ≤ 5)
    ∧ (5 < demoRes.total_chars →
        ∃ l, demoRes.content = [l] ∧ l.length = demoRes.total_chars) :=
  extract_char_budget_rule.2.2 demoState "s" (some 1) 5 demoRes demoState
    (by with_unfolding_all rfl)

/-- Scan bounds: starting from line `i` with `last_line_read` between
`cursor - 1` and `max (i - 1) (cursor - 1)`, the final `last_line_read`
stays between `cursor - 1` and the last line number of the file. -/
theorem go_llr_bounds (cursor : Int) (char_budget : Nat) :
    ∀ (lines : List Line) (i : Int) (extracted : List String) (total_chars : Nat)
      (last_line_read : Int),
      cursor - 1 ≤ last_line_read →
      last_line_read ≤ max (i - 1) (cursor - 1) →
      ∀ a t e,
        go cursor char_budget lines i extracted total_chars last_line_read = .ok (a, t, e) →
        cursor - 1 ≤ e ∧ e ≤ max ((i - 1) + (lines.length : Int)) (cursor - 1) := by
  intro lines
  induction lines with
  | nil =>
    intro i acc tc llr h1 h2 a t e hgo
    rw [go] at hgo
    simp only [Except.ok.injEq, Prod.mk.injEq] at hgo
    obtain ⟨-, -, he⟩ := hgo
    subst he
    simp only [List.length_nil]
    omega
  | cons line rest ih =>
    intro i acc tc llr h1 h2 a t e hgo
    rw [go] at hgo
    have hlen : ((line :: rest).length : Int) = (rest.length : Int) + 1 := by
      simp
    split at hgo
    · have := ih (i + 1) acc tc llr h1 (by omega) a t e hgo
      omega
    · rename_i hi
      split at hgo
      · exact absurd hgo (by simp)
      · have := ih (i + 1) acc tc i (by omega) (by omega) a t e hgo
        omega
      · rename_i f hlm
        split at hgo
        · simp only [Except.ok.injEq, Prod.mk.injEq] at hgo
          obtain ⟨-, -, he⟩ := hgo
          subst he
          omega
        · have := ih (i + 1) (acc ++ [f]) (tc + f.length) i (by omega) (by omega) a t e hgo
          omega

/-- C3: for an `extract` call with a positive cursor not exceeding
`totalLines`: if `endLine < totalLines` then
`nextCursor = max cursor (endLine - LINE_OVERLAP + 1)`; if
`endLine = totalLines` then `nextCursor` is null; and a non-null
`nextCursor` satisfies `cursor ≤ nextCursor ≤ endLine + 1` and
`endLine - nextCursor + 1 ≤ 10`. -/
theorem extract_next_cursor_overlap (st : DigestState) (session_id : String)
    (lines : List Line) (c : Int) (char_budget : Nat) (r : ExtractResult)
    (st' : DigestState)
    (hT : st.transcripts session_id = some lines)
    (hc1 : 1 ≤ c) (hc2 : c ≤ (lines.length : Int))
    (h : DigestAPI.extract st session_id (some c) char_budget = .ok (r, st')) :
    (r.end_line < (lines.length : Int) →
      r.next_cursor = some (max c (r.end_line - LINE_OVERLAP + 1)))
    ∧ (r.end_line = (lines.length : Int) → r.next_cursor = none)
    ∧ (∀ nc, r.next_cursor = some nc →
        c ≤ nc ∧ nc ≤ r.end_line + 1 ∧ r.end_line - nc + 1 ≤ 10) := by
  unfold DigestAPI.extract at h
  rw [hT] at h
  dsimp only [resolveCursor] at h
  rw [if_neg (by omega)] at h
  split at h
  · exact absurd h (by simp)
  · rename_i extracted total_chars last_line_read heq
    have hb := go_llr_bounds c char_budget lines 1 [] 0 (c - 1) (by omega) (by omega)
      extracted total_chars last_line_read heq
    simp only [Except.ok.injEq, Prod.mk.injEq] at h
    obtain ⟨hr, -⟩ := h
    subst hr
    dsimp only
    refine ⟨?_, ?_, ?_⟩
    · intro hlt
      rw [if_pos hlt]
    · intro heq2
      rw [if_neg (by omega)]
    · intro nc hnc
      split at hnc
      · rename_i hlt
        simp only [Option.some.injEq] at hnc
        rw [LINE_OVERLAP] at hnc
        omega
      · simp at hnc

/-- Witness for C3 at the demo extraction (cursor 1, budget 5). -/
theorem extract_next_cursor_overlap_witness :
    (demoRes.end_line < ((([uline, uline] : List Line).length : Nat) : Int) →
      demoRes.next_cursor = some (max 1 (demoRes.end_line - LINE_OVERLAP + 1)))
    ∧ (demoRes.end_line = ((([uline, uline] : List Line).length : Nat) : Int) →
        demoRes.next_cursor = none)
    ∧ (∀ nc, demoRes.next_cursor = some nc →
        1 ≤ nc ∧ nc ≤ demoRes.end_line + 1 ∧ demoRes.end_line - nc + 1 ≤ 10) :=
  extract_next_cursor_overlap demoState "s" [uline, uline] 1 5 demoRes demoState
    (by with_unfolding_all rfl) (by decide) (by decide)
    (by with_unfolding_all rfl)

/-- With a non-positive cursor no line is ever skipped — exactly as with
cursor 1 — so on a nonempty suffix the scan behaves identically (the
differing initial `last_line_read` is overwritten at the first line). -/
theorem go_nonpositive_cursor (c : Int) (char_budget : Nat) (hc : c ≤ 0) :
    ∀ (lines : List Line) (i : Int) (extracted : List String) (total_chars : Nat)
      (llr₁ llr₂ : Int),
      1 ≤ i →
      (lines = [] → llr₁ = llr₂) →
      go c char_budget lines i extracted total_chars llr₁ =
        go 1 char_budget lines i extracted total_chars llr₂ := by
  intro lines
  induction lines with
  | nil =>
    intro i acc tc llr₁ llr₂ hi hemp
    rw [go, go, hemp rfl]
  | cons line rest ih =>
    intro i acc tc llr₁ llr₂ hi hemp
    rw [go, go, if_neg (by omega), if_neg (by omega)]
    cases hlm : lineMsg line with
    | error e => rfl
    | ok o =>
      cases o with
      | none =>
        dsimp only
        exact ih (i + 1) acc tc i i (by omega) (fun _ => rfl)
      | some f =>
        dsimp only
        by_cases hbr : tc + f.length > char_budget ∧ acc ≠ []
        · rw [if_pos hbr, if_pos hbr]
        · rw [if_neg hbr, if_neg hbr]
          exact ih (i + 1) (acc ++ [f]) (tc + f.length) i i (by omega) (fun _ => rfl)

/-- C10: the positive-cursor precondition is not enforced: on an existing
nonempty transcript, a call with cursor `c ≤ 0` behaves exactly like the
call with cursor 1 — same content, `totalChars` and `endLine` when it
succeeds (with `startLine = c`), and the same error when it fails. -/
theorem extract_nonpositive_cursor (st : DigestState) (session_id : String)
    (lines : List Line) (c : Int) (char_budget : Nat)
    (hT : st.transcripts session_id = some lines)
    (hne : lines ≠ []) (hc : c ≤ 0) :
    (∀ (r : ExtractResult) (st' : DigestState),
      DigestAPI.extract st session_id (some c) char_budget = .ok (r, st') →
      ∃ r₁ : ExtractResult,
        DigestAPI.extract st session_id (some 1) char_budget = .ok (r₁, st')
        ∧ r.content = r₁.content ∧ r.total_chars = r₁.total_chars
        ∧ r.end_line = r₁.end_line ∧ r.start_line = c)
    ∧ (∀ e : DigestError,
        DigestAPI.extract st session_id (some c) char_budget = .error e →
        DigestAPI.extract st session_id (some 1) char_budget = .error e) := by
  have hlen : 0 < lines.length := List.length_pos.mpr hne
  have hgo := go_nonpositive_cursor c char_budget hc lines 1 [] 0 (c - 1) 0 (by omega)
    (fun h => absurd h hne)
  have h11 : (1 : Int) - 1 = 0 := by norm_num
  constructor
  · intro r st' h
    unfold DigestAPI.extract at h ⊢
    rw [hT] at h ⊢
    dsimp only [resolveCursor] at h ⊢
    rw [if_neg (by omega), hgo] at h
    rw [if_neg (by omega), h11]
    cases hg : go 1 char_budget lines 1 [] 0 0 with
    | error e =>
      rw [hg] at h
      exact absurd h (by simp)
    | ok out =>
      obtain ⟨extracted, total_chars, last_line_read⟩ := out
      rw [hg] at h
      dsimp only at h ⊢
      simp only [Except.ok.injEq, Prod.mk.injEq] at h
      obtain ⟨hr, hst⟩ := h
      subst hst
      refine ⟨_, rfl, ?_⟩
      rw [← hr]
      exact ⟨rfl, rfl, rfl, rfl⟩
  · intro e h
    unfold DigestAPI.extract at h ⊢
    rw [hT] at h ⊢
    dsimp only [resolveCursor] at h ⊢
    rw [if_neg (by omega), hgo] at h
    rw [if_neg (by omega), h11]
    cases hg : go 1 char_budget lines 1 [] 0 0 with
    | error e₀ =>
      rw [hg] at h
      exact h
    | ok out =>
      obtain ⟨extracted, total_chars, last_line_read⟩ := out
      rw [hg] at h
      exact absurd h (by simp)

/-- Witness for C10: the cursor-0 demo call matches the cursor-1 call. -/
theorem extract_nonpositive_cursor_witness :
    ∃ r₁ : ExtractResult,
      DigestAPI.extract demoState "s" (some 1) 5 = .ok (r₁, demoState)
      ∧ demoRes0.content = r₁.content ∧ demoRes0.total_chars = r₁.total_chars
      ∧ demoRes0.end_line = r₁.end_line ∧ demoRes0.start_line = 0 :=
  (extract_nonpositive_cursor demoState "s" [uline, uline] 0 5
      (by with_unfolding_all rfl) (by simp) (by decide)).1
    demoRes0 demoState (by with_unfolding_all rfl)

/-- The scan's final `last_line_read` never falls below its current
value. -/
theorem go_llr_mono (cursor : Int) (char_budget : Nat) :
    ∀ (lines : List Line) (i : Int) (extracted : List String) (total_chars : Nat)
      (last_line_read : Int),
      last_line_read ≤ max (i - 1) (cursor - 1) →
      ∀ a t e,
        go cursor char_budget lines i extracted total_chars last_line_read = .ok (a, t, e) →
        last_line_read ≤ e := by
  intro lines
  induction lines with
  | nil =>
    intro i acc tc llr h a t e hgo
    rw [go] at hgo
    simp only [Except.ok.injEq, Prod.mk.injEq] at hgo
    omega
  | cons line rest ih =>
    intro i acc tc llr h a t e hgo
    rw [go] at hgo
    split at hgo
    · exact ih (i + 1) acc tc llr (by omega) a t e hgo
    · rename_i hi
      split at hgo
      · exact absurd hgo (by simp)
      · have := ih (i + 1) acc tc i (by omega) a t e hgo
        omega
      · rename_i f hlm
        split at hgo
        · simp only [Except.ok.injEq, Prod.mk.injEq] at hgo
          omega
        · have := ih (i + 1) (acc ++ [f]) (tc + f.length) i (by omega) a t e hgo
          omega

/-- Rescan comparison: a second scan of the same lines from a cursor
`c' ≥ c` with budget `b' ≥ b` gets at least as far as the first scan did,
provided `c'` does not lie beyond the line after the first scan's end
(which is how `extract` chooses the next cursor).  The invariant relating
the two runs at line `i`: the rescan's running total is at most the first
run's (its accepted lines are a subset), the rescan has accepted a line
only if the first run has, and the rescan's `last_line_read` either still
sits at its initial `c' - 1` (with the first run's at most that, the
rescan not yet having visited anything) or equals the first run's (both
runs visited the same last line, which requires `c' ≤ i`). -/
theorem go_rescan (c c' : Int) (b b' : Nat) (hc : c ≤ c') (hb : b ≤ b') :
    ∀ (lines : List Line) (i : Int) (acc₁ acc₂ : List String) (tc₁ tc₂ : Nat)
      (llr₁ llr₂ : Int),
      tc₂ ≤ tc₁ →
      (acc₂ ≠ [] → acc₁ ≠ []) →
      ((llr₂ = c' - 1 ∧ llr₁ ≤ c' - 1) ∨ (llr₂ = llr₁ ∧ c' ≤ i)) →
      llr₂ ≤ max (i - 1) (c' - 1) →
      ∀ a₁ t₁ e₁ a₂ t₂ e₂,
        go c b lines i acc₁ tc₁ llr₁ = .ok (a₁, t₁, e₁) →
        c' ≤ e₁ + 1 →
        go c' b' lines i acc₂ tc₂ llr₂ = .ok (a₂, t₂, e₂) →
        e₁ ≤ e₂ := by
  intro lines
  induction lines with
  | nil =>
    intro i acc₁ acc₂ tc₁ tc₂ llr₁ llr₂ htc hacc hllr hmax a₁ t₁ e₁ a₂ t₂ e₂ h₁ hce h₂
    rw [go] at h₁ h₂
    simp only [Except.ok.injEq, Prod.mk.injEq] at h₁ h₂
    omega
  | cons line rest ih =>
    intro i acc₁ acc₂ tc₁ tc₂ llr₁ llr₂ htc hacc hllr hmax a₁ t₁ e₁ a₂ t₂ e₂ h₁ hce h₂
    rw [go] at h₁ h₂
    by_cases hi' : i < c'
    · rw [if_pos hi'] at h₂
      by_cases hi : i < c
      · rw [if_pos hi] at h₁
        exact ih (i + 1) acc₁ acc₂ tc₁ tc₂ llr₁ llr₂ htc hacc
          (by omega) (by omega) a₁ t₁ e₁ a₂ t₂ e₂ h₁ hce h₂
      · rw [if_neg hi] at h₁
        cases hlm : lineMsg line with
        | error e =>
          rw [hlm] at h₁
          exact absurd h₁ (by simp)
        | ok o =>
          rw [hlm] at h₁
          cases o with
          | none =>
            dsimp only at h₁
            exact ih (i + 1) acc₁ acc₂ tc₁ tc₂ i llr₂ htc hacc
              (by omega) (by omega) a₁ t₁ e₁ a₂ t₂ e₂ h₁ hce h₂
          | some f =>
            dsimp only at h₁
            by_cases hbr1 : tc₁ + f.length > b ∧ acc₁ ≠ []
            · rw [if_pos hbr1] at h₁
              simp only [Except.ok.injEq, Prod.mk.injEq] at h₁
              omega
            · rw [if_neg hbr1] at h₁
              refine ih (i + 1) (acc₁ ++ [f]) acc₂ (tc₁ + f.length) tc₂ i llr₂
                (by omega) (fun h => by simp) (by omega) (by omega)
                a₁ t₁ e₁ a₂ t₂ e₂ h₁ hce h₂
    · have hi : ¬ i < c := by omega
      rw [if_neg hi] at h₁
      rw [if_neg hi'] at h₂
      cases hlm : lineMsg line with
      | error e =>
        rw [hlm] at h₁
        exact absurd h₁ (by simp)
      | ok o =>
        rw [hlm] at h₁ h₂
        cases o with
        | none =>
          dsimp only at h₁ h₂
          exact ih (i + 1) acc₁ acc₂ tc₁ tc₂ i i htc hacc
            (by omega) (by omega) a₁ t₁ e₁ a₂ t₂ e₂ h₁ hce h₂
        | some f =>
          dsimp only at h₁ h₂
          by_cases hbr1 : tc₁ + f.length > b ∧ acc₁ ≠ []
          · rw [if_pos hbr1] at h₁
            simp only [Except.ok.injEq, Prod.mk.injEq] at h₁
            by_cases hbr2 : tc₂ + f.length > b' ∧ acc₂ ≠ []
            · rw [if_pos hbr2] at h₂
              simp only [Except.ok.injEq, Prod.mk.injEq] at h₂
              omega
            · rw [if_neg hbr2] at h₂
              have := go_llr_mono c' b' rest (i + 1) (acc₂ ++ [f]) (tc₂ + f.length) i
                (by omega) a₂ t₂ e₂ h₂
              omega
          · rw [if_neg hbr1] at h₁
            have hbr2 : ¬ (tc₂ + f.length > b' ∧ acc₂ ≠ []) := by
              rintro ⟨hgt, hne2⟩
              have hne1 := hacc hne2
              rcases Decidable.not_and_iff_or_not.mp hbr1 with hle | habs
              · omega
              · exact habs hne1
            rw [if_neg hbr2] at h₂
            exact ih (i + 1) (acc₁ ++ [f]) (acc₂ ++ [f]) (tc₁ + f.length) (tc₂ + f.length)
              i i (by omega) (fun _ => by simp) (by omega) (by omega)
              a₁ t₁ e₁ a₂ t₂ e₂ h₁ hce h₂

/-- C1 (amended): following the returned `nextCursor` with a stable or
growing budget and no intervening writes, `endLine` never decreases from
one `extract` call to the next.  (Strict increase — and hence termination
— fails; see the counterexample.) -/
theorem extract_endLine_monotone (st : DigestState) (session_id : String)
    (c c' : Int) (b b' : Nat) (r r' : ExtractResult) (st₁ st₂ : DigestState)
    (hb : b ≤ b')
    (h1 : DigestAPI.extract st session_id (some c) b = .ok (r, st₁))
    (hn : r.next_cursor = some c')
    (h2 : DigestAPI.extract st₁ session_id (some c') b' = .ok (r', st₂)) :
    r.end_line ≤ r'.end_line := by
  have hst := extract_returns_input_state _ _ _ _ _ _ h1
  rw [hst] at h2
  unfold DigestAPI.extract at h1 h2
  cases hT : st.transcripts session_id <;> rw [hT] at h1 h2
  · simp at h1
  · rename_i lines
    dsimp only [resolveCursor] at h1 h2
    by_cases hcb : c > (lines.length : Int)
    · rw [if_pos hcb] at h1
      simp only [Except.ok.injEq, Prod.mk.injEq] at h1
      rw [← h1.1] at hn
      simp at hn
    · rw [if_neg hcb] at h1
      cases hg1 : go c b lines 1 [] 0 (c - 1) with
      | error e =>
        rw [hg1] at h1
        exact absurd h1 (by simp)
      | ok out1 =>
        obtain ⟨a₁, t₁, e₁⟩ := out1
        rw [hg1] at h1
        dsimp only at h1
        simp only [Except.ok.injEq, Prod.mk.injEq] at h1
        obtain ⟨hr1, -⟩ := h1
        subst hr1
        dsimp only at hn ⊢
        by_cases hend : e₁ < (lines.length : Int)
        · rw [if_pos hend] at hn
          simp only [Option.some.injEq] at hn
          have hLO : LINE_OVERLAP = 10 := rfl
          rw [hLO] at hn
          have hbounds := go_llr_bounds c b lines 1 [] 0 (c - 1) (by omega) (by omega)
            a₁ t₁ e₁ hg1
          have hcc' : c ≤ c' := by omega
          have hce1 : c' ≤ e₁ + 1 := by omega
          rw [if_neg (by omega)] at h2
          cases hg2 : go c' b' lines 1 [] 0 (c' - 1) with
          | error e =>
            rw [hg2] at h2
            exact absurd h2 (by simp)
          | ok out2 =>
            obtain ⟨a₂, t₂, e₂⟩ := out2
            rw [hg2] at h2
            dsimp only at h2
            simp only [Except.ok.injEq, Prod.mk.injEq] at h2
            obtain ⟨hr2, -⟩ := h2
            subst hr2
            dsimp only
            exact go_rescan c c' b b' hcc' hb lines 1 [] [] 0 0 (c - 1) (c' - 1)
              le_rfl (fun h => absurd rfl h) (Or.inl ⟨rfl, by omega⟩) (by omega)
              a₁ t₁ e₁ a₂ t₂ e₂ hg1 hce1 hg2
        · rw [if_neg hend] at hn
          simp at hn

/-- C1 counterexample: on the 2-line demo transcript (each line formats
to 10 characters) with `char_budget = 5`, `extract` from cursor 1 accepts
line 1 (oversized-first-line exception), rejects line 2 and rolls back,
returning `end_line = 1` and `next_cursor = some 1` — the very cursor it
was given.  The follow-up call the claim prescribes therefore has
identical arguments and returns the identical result: `endLine` does not
strictly increase, `nextCursor` never becomes null, and the iteration
never terminates. -/
theorem extract_progress_counterexample :
    DigestAPI.extract demoState "s" (some 1) 5 = .ok (demoRes, demoState)
    ∧ demoRes.next_cursor = some 1
    ∧ ¬ demoRes.end_line < demoRes.end_line :=
  ⟨by with_unfolding_all rfl, rfl, by omega⟩

/-- Witness for the amended C1 at the demo transcript: the follow-up call
(at the returned cursor 1, equal budget) has `endLine` no smaller. -/
theorem extract_endLine_monotone_witness :
    demoRes.end_line ≤ demoRes.end_line :=
  extract_endLine_monotone demoState "s" 1 1 5 5 demoRes demoRes demoState demoState
    le_rfl (by with_unfolding_all rfl) rfl (by with_unfolding_all rfl)
